import Mathlib

/-!
Verification of the item-sync core of the syncing server.

The definitions below are shallow embeddings of the TypeScript source under
src/packages/syncing-server.  Machine numbers are modelled as Nat/Int with the
JavaScript truthiness conventions made explicit.  Asynchronous methods are
modelled as pure functions; a method that can reject is modelled with Except.
Collaborators that the service receives by dependency injection (timer,
projector, validator, repositories) are passed as explicit function arguments.
Definitions whose source file is not part of the repository snapshot carry a
doc comment starting with "Modelled from the spec:".
-/

namespace SyncServer

/-- An item row, from SQLItem.ts / the fields ItemService.ts reads and writes.
The Date twin columns (createdAt, updatedAt) of the microsecond timestamp
columns are elided: ItemService derives them from the timestamps via
timer.convertMicrosecondsToDate and never reads them back. -/
structure Item where
  uuid : String := ""
  userUuid : Option String := none
  content : Option String := none
  contentType : Option String := none
  contentSize : Nat := 0
  encItemKey : Option String := none
  authHash : Option String := none
  itemsKeyId : Option String := none
  deleted : Bool := false
  duplicateOf : Option String := none
  lastEditedByUuid : Option String := none
  updatedWithSession : Option String := none
  sharedVaultUuid : Option String := none
  keySystemIdentifier : Option String := none
  createdAtTimestamp : Nat := 0
  updatedAtTimestamp : Nat := 0
  deriving DecidableEq, Repr

/-- The client-supplied upload shape (ItemHash).  Every field except uuid is
optional on the wire; none models an absent (undefined) field. -/
structure ItemHash where
  uuid : String := ""
  content : Option String := none
  content_type : Option String := none
  deleted : Option Bool := none
  duplicate_of : Option String := none
  auth_hash : Option String := none
  enc_item_key : Option String := none
  items_key_id : Option String := none
  created_at : Option String := none
  created_at_timestamp : Option Nat := none
  updated_at_timestamp : Option Nat := none
  shared_vault_uuid : Option String := none
  key_system_identifier : Option String := none
  deriving DecidableEq, Repr

/-- JavaScript truthiness of an optional string: undefined and the empty
string are falsy. -/
def truthyStr : Option String → Bool
  | none => false
  | some s => s ≠ ""

/-- JavaScript truthiness of an optional number: undefined and 0 are falsy. -/
def truthyNat : Option Nat → Bool
  | none => false
  | some n => n ≠ 0

/-- ItemService.updateExistingItem (ItemService.ts lines 207-264), the pure
state transformation on the existing item.  projectSize stands for
byteLength(JSON.stringify(itemProjector.projectFull(item))) and
convDateStr for timer.convertStringDateToMicroseconds; updatedAt is the
value returned by timer.getTimestampInMicroseconds during this call.
Event publication (revision, duplicate, shared-vault user events) follows the
persistence and does not alter the returned entity; it is elided here. -/
def updateExistingItem (projectSize : Item → Nat) (convDateStr : String → Nat)
    (existingItem : Item) (itemHash : ItemHash)
    (userUuid : String) (sessionUuid : Option String) (updatedAt : Nat) : Item :=
  let item := { existingItem with
    updatedWithSession := sessionUuid
    contentSize := 0
    lastEditedByUuid := some userUuid
    keySystemIdentifier := itemHash.key_system_identifier
    sharedVaultUuid := itemHash.shared_vault_uuid }
  let item := if truthyStr itemHash.content then { item with content := itemHash.content } else item
  let item := if truthyStr itemHash.content_type then { item with contentType := itemHash.content_type } else item
  let item := match itemHash.deleted with
    | some d => { item with deleted := d }
    | none => item
  let item := if truthyStr itemHash.duplicate_of then { item with duplicateOf := itemHash.duplicate_of } else item
  let item := if truthyStr itemHash.auth_hash then { item with authHash := itemHash.auth_hash } else item
  let item := if truthyStr itemHash.enc_item_key then { item with encItemKey := itemHash.enc_item_key } else item
  let item := if truthyStr itemHash.items_key_id then { item with itemsKeyId := itemHash.items_key_id } else item
  let item := if truthyNat itemHash.created_at_timestamp then
      { item with createdAtTimestamp := itemHash.created_at_timestamp.getD 0 }
    else if truthyStr itemHash.created_at then
      { item with createdAtTimestamp := convDateStr (itemHash.created_at.getD "") }
    else item
  let item := { item with updatedAtTimestamp := updatedAt }
  let item := { item with contentSize := projectSize item }
  if itemHash.deleted == some true then
    { item with
      deleted := true
      content := none
      contentSize := 0
      encItemKey := none
      authHash := none
      itemsKeyId := none }
  else item

/-- ItemService.getItems (ItemService.ts lines 51-52): the effective query
limit derived from the request limit and the deploy-configured
maxItemsSyncLimit. -/
def effectiveGetItemsLimit (dtoLimit : Option Int) (maxItemsSyncLimit : Int) : Int :=
  let limit : Int := match dtoLimit with
    | none => 150
    | some l => if l < 1 then 150 else l
  if limit < maxItemsSyncLimit then limit else maxItemsSyncLimit

/-- The formula the spec gives for the effective limit:
min(max(request.limit, 1), MAX_SYNC_LIMIT), default DEFAULT_LIMIT = 150 when
no limit is supplied. -/
def specEffectiveLimit (dtoLimit : Option Int) (maxItemsSyncLimit : Int) : Int :=
  match dtoLimit with
  | none => min 150 maxItemsSyncLimit
  | some l => min (max l 1) maxItemsSyncLimit

/-- A concrete existing item that lives in a shared vault. -/
def vaultItem : Item :=
  { uuid := "i1"
    userUuid := some "u"
    content := some "c"
    contentType := some "Note"
    sharedVaultUuid := some "v"
    keySystemIdentifier := some "k"
    createdAtTimestamp := 50
    updatedAtTimestamp := 100 }

/-- An item hash naming vaultItem that omits every optional field. -/
def omittingHash : ItemHash := { uuid := "i1" }

/-- Internal value of an emitted token.  The wire form is
base64 of utf8 of the version, a colon, and the microsecond value divided by
1e6; that encoding is injective in the microsecond value, so the embedding
keeps the version and the microsecond payload. -/
structure TokenRepr where
  version : Nat
  micros : Nat
  deriving DecidableEq, Repr, Inhabited

/-- Comparison by updated_at_timestamp, the order underlying the sort
comparator of calculateSyncToken. -/
def tsLe (a b : Item) : Prop := a.updatedAtTimestamp ≤ b.updatedAtTimestamp

instance : DecidableRel tsLe := fun a b => Nat.decLe a.updatedAtTimestamp b.updatedAtTimestamp

instance : IsTotal Item tsLe := ⟨fun a b => Nat.le_total a.updatedAtTimestamp b.updatedAtTimestamp⟩

instance : IsTrans Item tsLe := ⟨fun _ _ _ hab hbc => Nat.le_trans hab hbc⟩

/-- Array.prototype.sort with the timestamp comparator, as invoked by
calculateSyncToken.  The runtime sort is stable; it is modelled by the stable
insertion sort ordered by updated_at_timestamp.  In the source the sort
mutates the savedItems array in place, so the array placed in the result
object is the sorted one. -/
def sortByUpdatedAt (l : List Item) : List Item := List.insertionSort tsLe l

/-- The largest updated_at_timestamp in a list (0 when empty). -/
def maxUpdatedTs (l : List Item) : Nat :=
  l.foldr (fun it m => max it.updatedAtTimestamp m) 0

/-- ItemService.calculateSyncToken (ItemService.ts lines 189-205): sort the
saved items by updated_at_timestamp, take the timestamp of the last entry (or
the request-start timestamp when no items were saved), add one microsecond. -/
def calculateSyncToken (lastUpdatedTimestamp : Nat) (savedItems : List Item) : TokenRepr :=
  let ts := match (sortByUpdatedAt savedItems).getLast? with
    | some it => it.updatedAtTimestamp
    | none => lastUpdatedTimestamp
  { version := 2
    micros := ts + 1 }

/-- The sync-token value the claim describes:
max(request-start, max saved updated_at_timestamp) + 1 microsecond, with the
request-start timestamp alone when nothing was saved. -/
def specSyncTokenMicros (start : Nat) (saved : List Item) : Nat :=
  (if saved.isEmpty then start else max start (maxUpdatedTs saved)) + 1

/-- The conflict kinds of the save pipeline (Tmp/ConflictType). -/
inductive ConflictType where
  | uuidConflict
  | syncConflict
  | contentTypeError
  | contentError
  | readOnlyError
  | uuidError
  | sharedVaultInsufficientPermissionsError
  deriving DecidableEq, Repr

/-- An ItemConflict entry; the source field named type is rendered
conflictType. -/
structure ItemConflict where
  unsavedItem : ItemHash
  serverItem : Option Item := none
  conflictType : ConflictType
  deriving DecidableEq, Repr

/-- The validator outcome shape (ItemSaveValidatorInterface). -/
structure ItemSaveProcessingResult where
  passed : Bool
  conflict : Option ItemConflict := none
  skipped : Option Item := none

/-- The collaborators and per-request constants saveItems closes over.
validate stands for itemSaveValidator.validate (userUuid, apiVersion and
snjsVersion are fixed for the call and absorbed); stamps enumerates the
successive values of timer.getTimestampInMicroseconds after the initial one;
saveFails tells which uuids make itemRepository.save throw. -/
structure SaveEnv where
  userUuid : String
  sessionUuid : Option String := none
  readOnlyAccess : Bool := false
  validate : ItemHash → Option Item → ItemSaveProcessingResult
  projectSize : Item → Nat
  convDateStr : String → Nat
  saveFails : String → Bool
  stamps : Nat → Nat
  startTimestamp : Nat

/-- The mutable state of the saveItems loop: the repository content, the
accumulated savedItems and conflicts arrays, and the count of timer reads. -/
structure SaveState where
  repo : List Item
  savedItems : List Item := []
  conflicts : List ItemConflict := []
  stamp : Nat := 0

/-- itemRepository.findByUuid over the in-memory repository model. -/
def findByUuid (repo : List Item) (uuid : String) : Option Item :=
  repo.find? (fun it => it.uuid == uuid)

/-- itemRepository.save as an upsert by uuid over the repository model. -/
def upsertItem (repo : List Item) (item : Item) : List Item :=
  if (findByUuid repo item.uuid).isSome then
    repo.map (fun it => if it.uuid == item.uuid then item else it)
  else repo ++ [item]

/-- Modelled from the spec: ItemFactory.create is not under src/.  Spec 4.4.2
step 6: materialize a new item from the hash with server-assigned timestamps
unless the hash supplied created_at_timestamp; content_size is the byte length
of the canonical serialization; spec 3 invariant 2: a tombstoned item has
content null, content_size 0, and the crypto envelope cleared. -/
def itemFactoryCreate (projectSize : Item → Nat) (userUuid : String)
    (itemHash : ItemHash) (sessionUuid : Option String) (now : Nat) : Item :=
  let item : Item :=
    { uuid := itemHash.uuid
      userUuid := some userUuid
      content := itemHash.content
      contentType := itemHash.content_type
      encItemKey := itemHash.enc_item_key
      authHash := itemHash.auth_hash
      itemsKeyId := itemHash.items_key_id
      deleted := itemHash.deleted.getD false
      duplicateOf := itemHash.duplicate_of
      lastEditedByUuid := some userUuid
      updatedWithSession := sessionUuid
      sharedVaultUuid := itemHash.shared_vault_uuid
      keySystemIdentifier := itemHash.key_system_identifier
      createdAtTimestamp :=
        if truthyNat itemHash.created_at_timestamp then itemHash.created_at_timestamp.getD 0 else now
      updatedAtTimestamp := now }
  let item := { item with contentSize := projectSize item }
  if itemHash.deleted == some true then
    { item with
      deleted := true
      content := none
      contentSize := 0
      encItemKey := none
      authHash := none
      itemsKeyId := none }
  else item

/-- One iteration of the saveItems loop (ItemService.ts lines 106-161).  The
try/catch wraps only the saveNewItem call: a rejection from the repository
while updating an existing item propagates out of the loop, which the Except
error models; a rejection while creating becomes a UuidConflict entry and the
loop continues. -/
def processItemHash (env : SaveEnv) (st : SaveState) (itemHash : ItemHash) :
    Except String SaveState :=
  let existingItem := findByUuid st.repo itemHash.uuid
  if env.readOnlyAccess then
    Except.ok { st with conflicts := st.conflicts ++
      [{ unsavedItem := itemHash
         serverItem := existingItem
         conflictType := ConflictType.readOnlyError }] }
  else
    let processingResult := env.validate itemHash existingItem
    if processingResult.passed = false then
      let st := match processingResult.conflict with
        | some c => { st with conflicts := st.conflicts ++ [c] }
        | none => st
      let st := match processingResult.skipped with
        | some it => { st with savedItems := st.savedItems ++ [it] }
        | none => st
      Except.ok st
    else
      match existingItem with
      | some existing =>
        let updatedItem := updateExistingItem env.projectSize env.convDateStr existing itemHash
          env.userUuid env.sessionUuid (env.stamps st.stamp)
        if env.saveFails itemHash.uuid then Except.error "save failed"
        else Except.ok { st with
          repo := upsertItem st.repo updatedItem
          savedItems := st.savedItems ++ [updatedItem]
          stamp := st.stamp + 1 }
      | none =>
        let newItem := itemFactoryCreate env.projectSize env.userUuid itemHash
          env.sessionUuid (env.stamps st.stamp)
        if env.saveFails itemHash.uuid then
          Except.ok { st with
            conflicts := st.conflicts ++
              [{ unsavedItem := itemHash
                 conflictType := ConflictType.uuidConflict }]
            stamp := st.stamp + 1 }
        else Except.ok { st with
          repo := upsertItem st.repo newItem
          savedItems := st.savedItems ++ [newItem]
          stamp := st.stamp + 1 }

/-- The saveItems for-loop over the batch. -/
def saveItemsLoop (env : SaveEnv) : List ItemHash → SaveState → Except String SaveState
  | [], st => Except.ok st
  | h :: hs, st =>
    match processItemHash env st h with
    | Except.ok st2 => saveItemsLoop env hs st2
    | Except.error e => Except.error e

/-- The result shape of saveItems. -/
structure SaveItemsResult where
  savedItems : List Item := []
  conflicts : List ItemConflict := []
  syncToken : TokenRepr := { version := 2
                             micros := 0 }
  deriving DecidableEq, Repr, Inhabited

/-- ItemService.saveItems (ItemService.ts lines 99-168).  The
lastUpdatedTimestamp is read from the timer when the call begins; the
savedItems array placed in the result is the one calculateSyncToken sorted in
place. -/
def saveItems (env : SaveEnv) (repo : List Item) (itemHashes : List ItemHash) :
    Except String SaveItemsResult :=
  match saveItemsLoop env itemHashes { repo := repo } with
  | Except.error e => Except.error e
  | Except.ok st =>
    let syncToken := calculateSyncToken env.startTimestamp st.savedItems
    Except.ok
      { savedItems := sortByUpdatedAt st.savedItems
        conflicts := st.conflicts
        syncToken := syncToken }

/-- An item with a stale timestamp, older than the request start. -/
def staleItem : Item :=
  { uuid := "a"
    userUuid := some "u"
    updatedAtTimestamp := 5 }

/-- An environment whose validator skips every hash, returning the existing
item as already applied (the re-sent-change case of spec 4.3). -/
def skipEnv : SaveEnv :=
  { userUuid := "u"
    validate := fun _ existing =>
      { passed := false
        skipped := existing }
    projectSize := fun _ => 1
    convDateStr := fun _ => 0
    saveFails := fun _ => false
    stamps := fun k => 1000 + k
    startTimestamp := 10 }

/-- An environment that passes validation and saves successfully. -/
def passEnv : SaveEnv :=
  { userUuid := "u"
    validate := fun _ _ => { passed := true }
    projectSize := fun _ => 3
    convDateStr := fun _ => 0
    saveFails := fun _ => false
    stamps := fun k => 500 + k
    startTimestamp := 100 }

/-- The result of a concrete one-item save used as the C2 witness input. -/
def passResult : SaveItemsResult :=
  ((saveItems passEnv [] [{ uuid := "n1" }]).toOption).getD default

/-- An item hash that tombstones its item. -/
def deletedHash : ItemHash :=
  { uuid := "i1"
    content := some "x"
    deleted := some true }

/-- The existing item the aborting update targets. -/
def itemA : Item :=
  { uuid := "a"
    userUuid := some "u"
    updatedAtTimestamp := 10 }

/-- An environment whose repository save throws for uuid a. -/
def abortEnv : SaveEnv :=
  { userUuid := "u"
    validate := fun _ _ => { passed := true }
    projectSize := fun _ => 2
    convDateStr := fun _ => 0
    saveFails := fun uuid => uuid == "a"
    stamps := fun k => 700 + k
    startTimestamp := 600 }

/-- An environment whose repository save throws for uuid c. -/
def createFailEnv : SaveEnv :=
  { userUuid := "u"
    validate := fun _ _ => { passed := true }
    projectSize := fun _ => 2
    convDateStr := fun _ => 0
    saveFails := fun uuid => uuid == "c"
    stamps := fun k => 800 + k
    startTimestamp := 750 }

/-- The stale server item that hash b re-sends. -/
def staleItemB : Item :=
  { uuid := "b"
    userUuid := some "u"
    updatedAtTimestamp := 5 }

/-- The repository for the ordering counterexample: a fresh target for hash a
and a stale already-applied item for hash b. -/
def orderRepo : List Item := [itemA, staleItemB]

/-- An environment that updates hash a and skips hash b as already applied. -/
def orderEnv : SaveEnv :=
  { userUuid := "u"
    validate := fun ih existing =>
      if ih.uuid == "a" then { passed := true }
      else { passed := false
             skipped := existing }
    projectSize := fun _ => 2
    convDateStr := fun _ => 0
    saveFails := fun _ => false
    stamps := fun k => 1000 + k
    startTimestamp := 900 }

/-- Errors getItems can surface: a token decode failure, or the TypeError of
reading items[items.length - 1] on an empty array. -/
inductive GetErr where
  | badToken
  | lastItemOfEmptyList
  deriving DecidableEq, Repr

/-- A decoded client token, the content of the base64 wire form.  A version-2
payload is a decimal count of seconds; the decoder multiplies it by 1e6, so
it is carried here already in microseconds.  missingVersion stands for any
unrecognized version prefix. -/
inductive RawToken where
  | v1 (date : String)
  | v2 (micros : Nat)
  | missingVersion
  deriving DecidableEq, Repr

/-- ItemService.getLastSyncTime (ItemService.ts lines 320-343): the cursor
token wins over the sync token; no token yields undefined; version 1 converts
a date string to microseconds, version 2 multiplies seconds by 1e6; any other
version throws. -/
def getLastSyncTime (convDateStr : String → Nat)
    (syncToken cursorToken : Option RawToken) : Except GetErr (Option Nat) :=
  let token := match cursorToken with
    | some t => some t
    | none => syncToken
  match token with
  | none => Except.ok none
  | some (RawToken.v1 d) => Except.ok (some (convDateStr d))
  | some (RawToken.v2 m) => Except.ok (some m)
  | some RawToken.missingVersion => Except.error GetErr.badToken

/-- The comparison applied against last_sync_time. -/
inductive SyncComparator where
  | gt
  | gte
  deriving DecidableEq, Repr

/-- The query shape ItemService builds (ItemQuery.ts fields the sync core
uses). -/
structure ItemQuery where
  userUuid : String
  includeSharedVaultUuids : Option (List String) := none
  exclusiveSharedVaultUuids : Option (List String) := none
  lastSyncTime : Option Nat := none
  syncTimeComparison : SyncComparator := SyncComparator.gt
  contentType : Option String := none
  deleted : Option Bool := none
  sortByCreatedAt : Bool := false
  offset : Nat := 0
  limit : Nat := 0
  deriving DecidableEq, Repr

/-- Modelled from the spec: the SQL item repository implementation is not
under src/.  Spec 4.5: find_all and count_all filter by user (or membership
of the item's vault in include_shared_vault_uuids), exclusive vault scoping,
content_type, deleted, and last_sync_time with the query's comparator. -/
def matchesQuery (q : ItemQuery) (it : Item) : Bool :=
  (match q.exclusiveSharedVaultUuids with
    | some vs =>
      (match it.sharedVaultUuid with
        | some v => vs.contains v
        | none => false)
    | none =>
      it.userUuid == some q.userUuid ||
      (match q.includeSharedVaultUuids, it.sharedVaultUuid with
        | some vs, some v => vs.contains v
        | _, _ => false)) &&
  (match q.contentType with
    | some ct => it.contentType == some ct
    | none => true) &&
  (match q.deleted with
    | some d => it.deleted == d
    | none => true) &&
  (match q.lastSyncTime with
    | some t =>
      (match q.syncTimeComparison with
        | SyncComparator.gte => t ≤ it.updatedAtTimestamp
        | SyncComparator.gt => t < it.updatedAtTimestamp)
    | none => true)

/-- Comparison by created_at_timestamp. -/
def crLe (a b : Item) : Prop := a.createdAtTimestamp ≤ b.createdAtTimestamp

instance : DecidableRel crLe := fun a b => Nat.decLe a.createdAtTimestamp b.createdAtTimestamp

/-- Stable sort by created_at_timestamp. -/
def sortByCreatedAt (l : List Item) : List Item := List.insertionSort crLe l

/-- Modelled from the spec: repository find_all — filter, order by the sort
key ascending, apply offset then limit. -/
def findAllForQuery (repo : List Item) (q : ItemQuery) : List Item :=
  (((if q.sortByCreatedAt then sortByCreatedAt else sortByUpdatedAt)
      (repo.filter (fun it => matchesQuery q it))).drop q.offset).take q.limit

/-- Modelled from the spec: repository count_all — the same filters with no
order, offset or limit. -/
def countAll (repo : List Item) (q : ItemQuery) : Nat :=
  (repo.filter (fun it => matchesQuery q it)).length

/-- Modelled from the spec: the budget walk of
ItemTransferCalculator.computeItemUuidsToFetch (source not under src/),
spec 4.2: include items while the running content_size total stays within the
budget; stop at the first item that would exceed it. -/
def selectUnderBudget (budget : Nat) : Nat → List Item → List String
  | _, [] => []
  | acc, it :: rest =>
    if acc + it.contentSize ≤ budget then
      it.uuid :: selectUnderBudget budget (acc + it.contentSize) rest
    else []

/-- Modelled from the spec: ItemTransferCalculator.computeItemUuidsToFetch is
not under src/.  Spec 4.2: stream (uuid, content_size) under the query's
filters, order and limit; if the first item alone exceeds the budget, include
it and stop; otherwise walk the stream accumulating sizes. -/
def computeItemUuidsToFetch (repo : List Item) (q : ItemQuery) (budget : Nat) : List String :=
  match findAllForQuery repo q with
  | [] => []
  | first :: rest =>
    if budget < first.contentSize then [first.uuid]
    else first.uuid :: selectUnderBudget budget first.contentSize rest

/-- The GetItemsDTO shape. -/
structure GetItemsDto where
  userUuid : String
  syncToken : Option RawToken := none
  cursorToken : Option RawToken := none
  limit : Option Int := none
  contentType : Option String := none
  sharedVaultUuids : Option (List String) := none
  deriving DecidableEq, Repr

/-- The ItemQuery getItems builds (ItemService.ts lines 63-74), given the
decoded last sync time and the caller's shared-vault memberships. -/
def builtItemQuery (maxItemsSyncLimit : Int) (userSharedVaultUuids : List String)
    (dto : GetItemsDto) (lastSyncTime : Option Nat) : ItemQuery :=
  { userUuid := dto.userUuid
    includeSharedVaultUuids :=
      if dto.sharedVaultUuids.isNone then some userSharedVaultUuids else none
    exclusiveSharedVaultUuids := dto.sharedVaultUuids.map
      (fun vs => vs.filter (fun v => userSharedVaultUuids.contains v))
    lastSyncTime := lastSyncTime
    syncTimeComparison := if dto.cursorToken.isSome then SyncComparator.gte else SyncComparator.gt
    contentType := dto.contentType
    deleted := if truthyNat lastSyncTime then none else some false
    limit := (effectiveGetItemsLimit dto.limit maxItemsSyncLimit).toNat }

/-- The result shape of getItems (GetItemsResult.ts). -/
structure GetItemsResult where
  items : List Item := []
  cursorToken : Option TokenRepr := none
  deriving DecidableEq, Repr, Inhabited

/-- ItemService.getItems (ItemService.ts lines 50-97).  userSharedVaultUuids
stands for the uuids collected from
sharedVaultUsersRepository.findAllForUser.  A cursor token is emitted exactly
when totalItemsCount > upperBoundLimit, from the updated_at_timestamp of
items[items.length - 1]; reading that element of an empty array is the
lastItemOfEmptyList error. -/
def getItems (convDateStr : String → Nat) (maxItemsSyncLimit : Int)
    (contentSizeTransferLimit : Nat) (userSharedVaultUuids : List String)
    (repo : List Item) (dto : GetItemsDto) : Except GetErr GetItemsResult :=
  match getLastSyncTime convDateStr dto.syncToken dto.cursorToken with
  | Except.error e => Except.error e
  | Except.ok lastSyncTime =>
    let upperBoundLimit := effectiveGetItemsLimit dto.limit maxItemsSyncLimit
    let itemQuery := builtItemQuery maxItemsSyncLimit userSharedVaultUuids dto lastSyncTime
    let itemUuidsToFetch := computeItemUuidsToFetch repo itemQuery contentSizeTransferLimit
    let items := if itemUuidsToFetch.length > 0 then
        sortByUpdatedAt (repo.filter (fun it => itemUuidsToFetch.contains it.uuid))
      else []
    let totalItemsCount := countAll repo itemQuery
    if (totalItemsCount : Int) > upperBoundLimit then
      match items.getLast? with
      | none => Except.error GetErr.lastItemOfEmptyList
      | some last => Except.ok
          { items := items
            cursorToken := some { version := 2
                                  micros := last.updatedAtTimestamp } }
    else Except.ok { items := items }

/-- A 60-byte item, the first of the budget-truncation scenario. -/
def itemC3A : Item :=
  { uuid := "a"
    userUuid := some "u"
    contentSize := 60
    updatedAtTimestamp := 10 }

/-- A second 60-byte item that no longer fits the 100-byte budget. -/
def itemC3B : Item :=
  { uuid := "b"
    userUuid := some "u"
    contentSize := 60
    updatedAtTimestamp := 20 }

/-- The query getItems builds for an initial sync of user u with no request
vaults and no memberships, default limit, MAX_SYNC_LIMIT 1000. -/
def queryC3 : ItemQuery := builtItemQuery 1000 [] { userUuid := "u" } none

/-- The getItems run used as the C3 witness: limit 1, two matching items. -/
def resultC3w : GetItemsResult :=
  ((getItems (fun _ => 0) 1000 100 [] [itemC3A, itemC3B]
      { userUuid := "u"
        limit := some 1 }).toOption).getD default

/-- A request carrying a token with an unknown version prefix. -/
def badTokenDto : GetItemsDto :=
  { userUuid := "u"
    syncToken := some RawToken.missingVersion }

/-- The status values of domain-core TransitionStatus.STATUSES. -/
inductive TransitionStatus where
  | notStarted
  | inProgress
  | verified
  | failed
  deriving DecidableEq, Repr

/-- Ceiling division, the Math.ceil(a / b) of the page computations. -/
def ceilDiv (a b : Nat) : Nat := (a + b - 1) / b

/-- itemRepository.removeByUuid over the repository model. -/
def removeByUuid (repo : List Item) (uuid : String) : List Item :=
  repo.filter (fun it => ¬ it.uuid == uuid)

/-- itemRepository.deleteByUserUuidAndNotInSharedVault over the repository
model. -/
def deleteUserItemsNotInSharedVault (repo : List Item) (u : String) : List Item :=
  repo.filter (fun it => ¬ (it.userUuid == some u && it.sharedVaultUuid == none))

/-- The collaborators and stored state one Transition Runner execution reads
(TransitionItemsFromPrimaryToSecondaryDatabaseForUser.ts).  Despite the class
name, the runner reads pages from the SECONDARY repository and writes to the
PRIMARY one, so the secondary is the source and the primary the target.
isIdentical stands for Item.isIdenticalTo (not under src/; spec section 9
describes it as field equality); findAllThrowsAtPage and cleanupFails model
infrastructure rejections caught by the phase-level try/catch blocks;
saveFails models a primary save rejection, which the inner per-item catch
swallows.  The settle sleeps are timing only and are elided. -/
structure TransEnv where
  secondaryRepoPresent : Bool := true
  statusRepoPresent : Bool := true
  userUuidValid : Bool := true
  userUuid : String := "u"
  pageSize : Nat := 1
  pagingProgress : Nat := 1
  integrityProgress : Nat := 1
  primary : List Item := []
  secondary : List Item := []
  isIdentical : Item → Item → Bool := fun a b => a == b
  findAllThrowsAtPage : Nat → Bool := fun _ => false
  cleanupFails : Bool := false
  saveFails : String → Bool := fun _ => false

/-- One source item of the copy loop (migrateItemsForUser inner body): skip
when the primary holds a strictly newer version, skip when identical,
otherwise remove the primary version and save the source item; a save
rejection is caught and logged, leaving the removal in place. -/
def migrateItem (env : TransEnv) (primary : List Item) (item : Item) : List Item :=
  match findByUuid primary item.uuid with
  | some itemInPrimary =>
    if item.updatedAtTimestamp < itemInPrimary.updatedAtTimestamp then primary
    else if env.isIdentical itemInPrimary item then primary
    else
      let primary2 := removeByUuid primary item.uuid
      if env.saveFails item.uuid then primary2 else upsertItem primary2 item
  | none =>
    if env.saveFails item.uuid then primary else upsertItem primary item

/-- The outcome of the copy phase: the events it published, the final primary
store, the stored paging progress, and whether the phase-level try/catch
caught an infrastructure error. -/
structure MigrateOut where
  events : List TransitionStatus := []
  primary : List Item := []
  pagingProgress : Nat := 1
  ok : Bool := true
  deriving Repr

/-- The page loop of migrateItemsForUser: publish InProgress on every ~10% of
pages, persist the paging progress, read the page from the secondary store and
copy its items into the primary store. -/
def migratePages (env : TransEnv) (totalPages : Nat) :
    Nat → Nat → List Item → List TransitionStatus → Nat → MigrateOut
  | 0, _, primary, events, progress =>
    { events := events
      primary := primary
      pagingProgress := progress
      ok := true }
  | fuel + 1, currentPage, primary, events, progress =>
    if totalPages < currentPage then
      { events := events
        primary := primary
        pagingProgress := progress
        ok := true }
    else
      let events := if currentPage % ceilDiv totalPages 10 == 0 then
          events ++ [TransitionStatus.inProgress]
        else events
      let progress := currentPage
      if env.findAllThrowsAtPage currentPage then
        { events := events
          primary := primary
          pagingProgress := progress
          ok := false }
      else
        let pageItems := findAllForQuery env.secondary
          { userUuid := env.userUuid
            sortByCreatedAt := true
            offset := (currentPage - 1) * env.pageSize
            limit := env.pageSize }
        migratePages env totalPages fuel (currentPage + 1)
          (pageItems.foldl (migrateItem env) primary) events progress

/-- TransitionItemsFromPrimaryToSecondaryDatabaseForUser.migrateItemsForUser:
resume at the stored paging progress; pages are counted over the secondary
(source) store. -/
def migrateItemsForUser (env : TransEnv) : MigrateOut :=
  let initialPage := env.pagingProgress
  let totalItems := countAll env.secondary { userUuid := env.userUuid }
  let totalPages := ceilDiv totalItems env.pageSize
  migratePages env totalPages (totalPages + 1 - initialPage) initialPage env.primary [] initialPage

/-- One secondary item of the integrity loop: it must exist in the primary
store and be identical there, unless the primary version is strictly newer. -/
def checkItemIntegrity (env : TransEnv) (primary : List Item) (item : Item) : Bool :=
  match findByUuid primary item.uuid with
  | none => false
  | some itemInPrimary =>
    if item.updatedAtTimestamp < itemInPrimary.updatedAtTimestamp then true
    else env.isIdentical item itemInPrimary

/-- The page loop of checkIntegrityBetweenPrimaryAndSecondaryDatabase:
persist the integrity progress and stop at the first failing item. -/
def integrityPages (env : TransEnv) (primary : List Item) (totalPages : Nat) :
    Nat → Nat → Nat → (Nat × Bool)
  | 0, _, progress => (progress, true)
  | fuel + 1, currentPage, progress =>
    if totalPages < currentPage then (progress, true)
    else
      let progress := currentPage
      let pageItems := findAllForQuery env.secondary
        { userUuid := env.userUuid
          sortByCreatedAt := true
          offset := (currentPage - 1) * env.pageSize
          limit := env.pageSize }
      if pageItems.all (checkItemIntegrity env primary) then
        integrityPages env primary totalPages fuel (currentPage + 1) progress
      else (progress, false)

/-- checkIntegrityBetweenPrimaryAndSecondaryDatabase: fail outright when the
primary holds fewer items for the user than the secondary; otherwise page
through the secondary (with the page count taken from the PRIMARY total, as
the source does) and check each item. -/
def checkIntegrity (env : TransEnv) (primary : List Item) : (Nat × Bool) :=
  let initialPage := env.integrityProgress
  let totalSecondary := countAll env.secondary { userUuid := env.userUuid }
  let totalPrimary := countAll primary { userUuid := env.userUuid }
  if totalPrimary < totalSecondary then (initialPage, false)
  else
    let totalPages := ceilDiv totalPrimary env.pageSize
    integrityPages env primary totalPages (totalPages + 1 - initialPage) initialPage initialPage

/-- The observable outcome of one Transition Runner execution: the Result,
the TransitionStatusUpdated events in publication order, whether the copy
phase ran, and the final stores and progress counters. -/
structure TransOutput where
  ok : Bool := true
  events : List TransitionStatus := []
  copyRan : Bool := false
  primary : List Item := []
  secondary : List Item := []
  pagingProgress : Nat := 1
  integrityProgress : Nat := 1
  deriving Repr

/-- TransitionItemsFromPrimaryToSecondaryDatabaseForUser.execute (lines
26-101).  isAlreadyMigrated returns whether countAll on the secondary store
is zero, so the short-circuit fires when the SOURCE store is empty, not when
the target has items.  A failed cleanup publishes Failed, is logged, and
execution still falls through to the final Verified publication. -/
def executeTransition (env : TransEnv) : TransOutput :=
  if env.secondaryRepoPresent = false then
    { ok := false
      primary := env.primary
      secondary := env.secondary
      pagingProgress := env.pagingProgress
      integrityProgress := env.integrityProgress }
  else if env.statusRepoPresent = false then
    { ok := false
      primary := env.primary
      secondary := env.secondary
      pagingProgress := env.pagingProgress
      integrityProgress := env.integrityProgress }
  else if env.userUuidValid = false then
    { ok := false
      primary := env.primary
      secondary := env.secondary
      pagingProgress := env.pagingProgress
      integrityProgress := env.integrityProgress }
  else if countAll env.secondary { userUuid := env.userUuid } == 0 then
    { ok := true
      events := [TransitionStatus.verified]
      copyRan := false
      primary := env.primary
      secondary := env.secondary
      pagingProgress := env.pagingProgress
      integrityProgress := env.integrityProgress }
  else
    let m := migrateItemsForUser env
    if m.ok = false then
      { ok := false
        events := m.events ++ [TransitionStatus.failed]
        copyRan := true
        primary := m.primary
        secondary := env.secondary
        pagingProgress := m.pagingProgress
        integrityProgress := env.integrityProgress }
    else
      let ic := checkIntegrity env m.primary
      if ic.2 = false then
        { ok := false
          events := m.events ++ [TransitionStatus.failed]
          copyRan := true
          primary := m.primary
          secondary := env.secondary
          pagingProgress := 1
          integrityProgress := 1 }
      else if env.cleanupFails then
        { ok := true
          events := m.events ++ [TransitionStatus.failed, TransitionStatus.verified]
          copyRan := true
          primary := m.primary
          secondary := env.secondary
          pagingProgress := m.pagingProgress
          integrityProgress := ic.1 }
      else
        { ok := true
          events := m.events ++ [TransitionStatus.verified]
          copyRan := true
          primary := m.primary
          secondary := deleteUserItemsNotInSharedVault env.secondary env.userUuid
          pagingProgress := m.pagingProgress
          integrityProgress := ic.1 }

/-- A user item already present in the primary (target) store. -/
def pItem : Item :=
  { uuid := "p"
    userUuid := some "u"
    createdAtTimestamp := 1
    updatedAtTimestamp := 2 }

/-- A user item in the secondary (source) store. -/
def sItem : Item :=
  { uuid := "s"
    userUuid := some "u"
    createdAtTimestamp := 3
    updatedAtTimestamp := 4 }

/-- A run whose target (primary) store already has an item for the user and
whose source (secondary) store is non-empty. -/
def envBoth : TransEnv :=
  { primary := [pItem]
    secondary := [sItem] }

/-- A run with both stores empty for the user. -/
def envEmpty : TransEnv := { primary := [] }

/-- No Verified status is published after a Failed status in the given event
sequence. -/
def noVerifiedAfterFailed : List TransitionStatus → Bool
  | [] => true
  | TransitionStatus.failed :: rest =>
    decide (TransitionStatus.verified ∉ rest) && noVerifiedAfterFailed rest
  | _ :: rest => noVerifiedAfterFailed rest

/-- The cleanup-failure run: both stores non-empty, migration and integrity
succeed, the cleanup deletion rejects. -/
def envCleanup : TransEnv :=
  { primary := [pItem]
    secondary := [sItem]
    cleanupFails := true }

/-- C9: the claim computes min(max(limit, 1), MAX_SYNC_LIMIT); the code falls
back to the default limit 150 whenever the supplied limit is below 1, so a
supplied limit of 0 yields 150 (capped), not 1. -/
theorem claim9_counterexample :
    effectiveGetItemsLimit (some 0) 1000 = 150 ∧
    specEffectiveLimit (some 0) 1000 = 1 ∧
    effectiveGetItemsLimit (some 0) 1000 ≠ specEffectiveLimit (some 0) 1000 := by
  refine ⟨rfl, rfl, ?_⟩
  decide

/-- C9 (amended): the effective limit is min(request.limit, MAX_SYNC_LIMIT)
when the supplied limit is at least 1, and min(150, MAX_SYNC_LIMIT) when the
limit is absent or below 1; in particular a supplied limit of 0 yields the
default 150 capped by MAX_SYNC_LIMIT. -/
theorem claim9_amended (dtoLimit : Option Int) (maxL : Int) :
    effectiveGetItemsLimit dtoLimit maxL =
      (match dtoLimit with
        | none => min 150 maxL
        | some l => if l < 1 then min 150 maxL else min l maxL) := by
  cases dtoLimit with
  | none =>
    simp only [effectiveGetItemsLimit]
    split <;> omega
  | some l =>
    simp only [effectiveGetItemsLimit]
    by_cases h : l < 1 <;> simp only [h, if_true, if_false, reduceIte] <;> split <;> omega

/-- C1: the claim says an item_hash that omits shared_vault_uuid and
key_system_identifier leaves those fields unchanged; the code assigns them
from the hash unconditionally, so omission clears them. -/
theorem claim1_counterexample :
    (updateExistingItem (fun _ => 7) (fun _ => 0) vaultItem omittingHash "u" none 200).sharedVaultUuid = none ∧
    (updateExistingItem (fun _ => 7) (fun _ => 0) vaultItem omittingHash "u" none 200).keySystemIdentifier = none ∧
    vaultItem.sharedVaultUuid = some "v" ∧
    vaultItem.keySystemIdentifier = some "k" := by
  refine ⟨?_, ?_, rfl, rfl⟩ <;> rfl

/-- C1 (amended): on update, the fields content, content_type, deleted,
duplicate_of, auth_hash, enc_item_key, items_key_id and the created-at
timestamp do follow omission-means-no-change (with content and the crypto
envelope additionally cleared by a deleted=true tombstone write), but
shared_vault_uuid and key_system_identifier are always overwritten with the
incoming hash value, so omitting them clears them rather than leaving them
unchanged. -/
theorem claim1_amended (projectSize : Item → Nat) (convDateStr : String → Nat)
    (e : Item) (ih : ItemHash) (u : String) (s : Option String) (t : Nat) :
    (truthyStr ih.content = false → ih.deleted ≠ some true →
      (updateExistingItem projectSize convDateStr e ih u s t).content = e.content) ∧
    (truthyStr ih.content_type = false →
      (updateExistingItem projectSize convDateStr e ih u s t).contentType = e.contentType) ∧
    (ih.deleted = none →
      (updateExistingItem projectSize convDateStr e ih u s t).deleted = e.deleted) ∧
    (truthyStr ih.duplicate_of = false →
      (updateExistingItem projectSize convDateStr e ih u s t).duplicateOf = e.duplicateOf) ∧
    (truthyStr ih.auth_hash = false → ih.deleted ≠ some true →
      (updateExistingItem projectSize convDateStr e ih u s t).authHash = e.authHash) ∧
    (truthyStr ih.enc_item_key = false → ih.deleted ≠ some true →
      (updateExistingItem projectSize convDateStr e ih u s t).encItemKey = e.encItemKey) ∧
    (truthyStr ih.items_key_id = false → ih.deleted ≠ some true →
      (updateExistingItem projectSize convDateStr e ih u s t).itemsKeyId = e.itemsKeyId) ∧
    (truthyNat ih.created_at_timestamp = false → truthyStr ih.created_at = false →
      (updateExistingItem projectSize convDateStr e ih u s t).createdAtTimestamp = e.createdAtTimestamp) ∧
    (updateExistingItem projectSize convDateStr e ih u s t).sharedVaultUuid = ih.shared_vault_uuid ∧
    (updateExistingItem projectSize convDateStr e ih u s t).keySystemIdentifier = ih.key_system_identifier := by
  refine ⟨?_, ?_, ?_, ?_, ?_, ?_, ?_, ?_, ?_, ?_⟩
  case _ =>
    intro h1 h2
    cases hd : ih.deleted with
    | none =>
      simp [updateExistingItem, h1, hd, apply_ite Item.content]
    | some d =>
      cases d with
      | false => simp [updateExistingItem, h1, hd, apply_ite Item.content]
      | true => exact absurd hd h2
  case _ =>
    intro h1
    cases hd : ih.deleted with
    | none => simp [updateExistingItem, h1, hd, apply_ite Item.contentType]
    | some d =>
      cases d <;> simp [updateExistingItem, h1, hd, apply_ite Item.contentType]
  case _ =>
    intro hd
    simp [updateExistingItem, hd, apply_ite Item.deleted]
  case _ =>
    intro h1
    cases hd : ih.deleted with
    | none => simp [updateExistingItem, h1, hd, apply_ite Item.duplicateOf]
    | some d =>
      cases d <;> simp [updateExistingItem, h1, hd, apply_ite Item.duplicateOf]
  case _ =>
    intro h1 h2
    cases hd : ih.deleted with
    | none => simp [updateExistingItem, h1, hd, apply_ite Item.authHash]
    | some d =>
      cases d with
      | false => simp [updateExistingItem, h1, hd, apply_ite Item.authHash]
      | true => exact absurd hd h2
  case _ =>
    intro h1 h2
    cases hd : ih.deleted with
    | none => simp [updateExistingItem, h1, hd, apply_ite Item.encItemKey]
    | some d =>
      cases d with
      | false => simp [updateExistingItem, h1, hd, apply_ite Item.encItemKey]
      | true => exact absurd hd h2
  case _ =>
    intro h1 h2
    cases hd : ih.deleted with
    | none => simp [updateExistingItem, h1, hd, apply_ite Item.itemsKeyId]
    | some d =>
      cases d with
      | false => simp [updateExistingItem, h1, hd, apply_ite Item.itemsKeyId]
      | true => exact absurd hd h2
  case _ =>
    intro h1 h2
    cases hd : ih.deleted with
    | none => simp [updateExistingItem, h1, h2, hd, apply_ite Item.createdAtTimestamp]
    | some d =>
      cases d <;> simp [updateExistingItem, h1, h2, hd, apply_ite Item.createdAtTimestamp]
  case _ =>
    cases hd : ih.deleted with
    | none => simp [updateExistingItem, hd, apply_ite Item.sharedVaultUuid]
    | some d =>
      cases d <;> simp [updateExistingItem, hd, apply_ite Item.sharedVaultUuid]
  case _ =>
    cases hd : ih.deleted with
    | none => simp [updateExistingItem, hd, apply_ite Item.keySystemIdentifier]
    | some d =>
      cases d <;> simp [updateExistingItem, hd, apply_ite Item.keySystemIdentifier]

/-- C1 witness: the amended frame property evaluated on vaultItem and the
all-omitting hash. -/
theorem claim1_witness :
    (updateExistingItem (fun _ => 7) (fun _ => 0) vaultItem omittingHash "u" none 200).content = vaultItem.content ∧
    (updateExistingItem (fun _ => 7) (fun _ => 0) vaultItem omittingHash "u" none 200).deleted = vaultItem.deleted ∧
    (updateExistingItem (fun _ => 7) (fun _ => 0) vaultItem omittingHash "u" none 200).createdAtTimestamp
      = vaultItem.createdAtTimestamp := by
  have h := claim1_amended (fun _ => 7) (fun _ => 0) vaultItem omittingHash "u" none 200
  exact ⟨h.1 (by decide) (by decide), h.2.2.1 (by decide),
    h.2.2.2.2.2.2.2.1 (by decide) (by decide)⟩

lemma maxUpdatedTs_cons (x : Item) (l : List Item) :
    maxUpdatedTs (x :: l) = max x.updatedAtTimestamp (maxUpdatedTs l) := rfl

lemma maxUpdatedTs_perm {l1 l2 : List Item} (h : l1.Perm l2) :
    maxUpdatedTs l1 = maxUpdatedTs l2 := by
  induction h with
  | nil => rfl
  | cons x _ ih => simp [maxUpdatedTs_cons, ih]
  | swap x y l => simp [maxUpdatedTs_cons, Nat.max_left_comm]
  | trans _ _ ih1 ih2 => exact ih1.trans ih2

lemma maxUpdatedTs_sorted_getLast :
    ∀ (l : List Item), List.Sorted tsLe l → ∀ hne : l ≠ [],
      maxUpdatedTs l = (l.getLast hne).updatedAtTimestamp := by
  intro l
  induction l with
  | nil => intro _ hne; exact absurd rfl hne
  | cons x l ih =>
    intro hs hne
    cases l with
    | nil =>
      simp [maxUpdatedTs_cons, maxUpdatedTs]
    | cons y l2 =>
      have hparts := List.sorted_cons.mp hs
      have hlast : (x :: y :: l2).getLast hne = (y :: l2).getLast (by simp) :=
        List.getLast_cons (by simp)
      rw [maxUpdatedTs_cons, ih hparts.2 (by simp), hlast]
      exact Nat.max_eq_right (hparts.1 _ (List.getLast_mem _))

lemma sortByUpdatedAt_getLast (l : List Item) (hne : l ≠ []) :
    ∃ it, (sortByUpdatedAt l).getLast? = some it ∧
      it.updatedAtTimestamp = maxUpdatedTs l := by
  have hperm : (sortByUpdatedAt l).Perm l := List.perm_insertionSort tsLe l
  have hne2 : sortByUpdatedAt l ≠ [] := by
    intro h
    have hl := hperm.length_eq
    rw [h] at hl
    simp at hl
    exact hne (List.eq_nil_of_length_eq_zero hl.symm)
  have hsorted : List.Sorted tsLe (sortByUpdatedAt l) := List.sorted_insertionSort tsLe l
  refine ⟨(sortByUpdatedAt l).getLast hne2, List.getLast?_eq_getLast _ hne2, ?_⟩
  rw [← maxUpdatedTs_sorted_getLast _ hsorted hne2]
  exact maxUpdatedTs_perm hperm

lemma calculateSyncToken_eq (start : Nat) (l : List Item) :
    calculateSyncToken start l =
      { version := 2
        micros := (if l.isEmpty then start else maxUpdatedTs l) + 1 } := by
  cases l with
  | nil => rfl
  | cons x xs =>
    obtain ⟨it, hgl, hts⟩ := sortByUpdatedAt_getLast (x :: xs) (by simp)
    simp [calculateSyncToken, hgl, hts]

/-- C2: a save_items call whose only saved item is a skipped, stale item
returns that item's timestamp + 1, not
max(request-start, max saved timestamp) + 1 as the claim states: the code
overwrites the request-start timestamp with the sorted maximum whenever
savedItems is non-empty. -/
theorem claim2_counterexample :
    saveItems skipEnv [staleItem] [{ uuid := "a" }] =
      Except.ok
        { savedItems := [staleItem]
          conflicts := []
          syncToken := { version := 2
                         micros := 6 } } ∧
    specSyncTokenMicros skipEnv.startTimestamp [staleItem] = 11 ∧ (6 : Nat) ≠ 11 := by
  refine ⟨rfl, rfl, by decide⟩

/-- C2 (amended): the sync token returned by save_items is the v2 encoding of
(max updated_at_timestamp over saved_items) + 1 microsecond when saved_items
is non-empty — the request-start timestamp does not participate — and of the
request-start timestamp + 1 microsecond when saved_items is empty. -/
theorem claim2_amended (env : SaveEnv) (repo : List Item) (hashes : List ItemHash)
    (res : SaveItemsResult) (hok : saveItems env repo hashes = Except.ok res) :
    res.syncToken =
      { version := 2
        micros := (if res.savedItems.isEmpty then env.startTimestamp
                   else maxUpdatedTs res.savedItems) + 1 } := by
  unfold saveItems at hok
  cases hloop : saveItemsLoop env hashes { repo := repo } with
  | error e => rw [hloop] at hok; exact absurd hok (by simp)
  | ok st =>
    rw [hloop] at hok
    simp only [Except.ok.injEq] at hok
    have hperm : (sortByUpdatedAt st.savedItems).Perm st.savedItems :=
      List.perm_insertionSort tsLe st.savedItems
    have hempty : res.savedItems.isEmpty = st.savedItems.isEmpty := by
      rw [← hok]
      show (sortByUpdatedAt st.savedItems).isEmpty = st.savedItems.isEmpty
      cases hsl : st.savedItems with
      | nil => rfl
      | cons a l =>
        cases hs2 : sortByUpdatedAt (a :: l) with
        | nil =>
          have hl := (List.perm_insertionSort tsLe (a :: l)).length_eq
          rw [show List.insertionSort tsLe (a :: l) = sortByUpdatedAt (a :: l) from rfl, hs2] at hl
          simp at hl
        | cons b m => rfl
    have hmax : maxUpdatedTs res.savedItems = maxUpdatedTs st.savedItems := by
      rw [← hok]
      exact maxUpdatedTs_perm hperm
    have htok : res.syncToken = calculateSyncToken env.startTimestamp st.savedItems := by
      rw [← hok]
    rw [htok, calculateSyncToken_eq, hempty, hmax]

/-- C2 witness: the amended sync-token law evaluated on a concrete
one-item creating save. -/
theorem claim2_witness :
    passResult.syncToken =
      { version := 2
        micros := (if passResult.savedItems.isEmpty then passEnv.startTimestamp
                   else maxUpdatedTs passResult.savedItems) + 1 } :=
  claim2_amended passEnv [] [{ uuid := "n1" }] passResult rfl

/-- C4: every save_items write carrying deleted=true persists a tombstone:
deleted=true, content=null, content_size=0, and enc_item_key, auth_hash and
items_key_id cleared — on the update path (ItemService.ts lines 268-277) and
on the create path (ItemFactory, modelled from the spec). -/
theorem claim4_theorem (projectSize : Item → Nat) (convDateStr : String → Nat)
    (e : Item) (ih : ItemHash) (u : String) (s : Option String) (t now : Nat)
    (h : ih.deleted = some true) :
    ((updateExistingItem projectSize convDateStr e ih u s t).deleted = true ∧
     (updateExistingItem projectSize convDateStr e ih u s t).content = none ∧
     (updateExistingItem projectSize convDateStr e ih u s t).contentSize = 0 ∧
     (updateExistingItem projectSize convDateStr e ih u s t).encItemKey = none ∧
     (updateExistingItem projectSize convDateStr e ih u s t).authHash = none ∧
     (updateExistingItem projectSize convDateStr e ih u s t).itemsKeyId = none) ∧
    ((itemFactoryCreate projectSize u ih s now).deleted = true ∧
     (itemFactoryCreate projectSize u ih s now).content = none ∧
     (itemFactoryCreate projectSize u ih s now).contentSize = 0 ∧
     (itemFactoryCreate projectSize u ih s now).encItemKey = none ∧
     (itemFactoryCreate projectSize u ih s now).authHash = none ∧
     (itemFactoryCreate projectSize u ih s now).itemsKeyId = none) := by
  constructor
  · simp [updateExistingItem, h]
  · simp [itemFactoryCreate, h]

/-- C4 witness: the tombstone rules evaluated on a concrete deleting update
and a concrete deleting create. -/
theorem claim4_witness :
    (updateExistingItem (fun _ => 7) (fun _ => 0) vaultItem deletedHash "u" none 300).content = none ∧
    (updateExistingItem (fun _ => 7) (fun _ => 0) vaultItem deletedHash "u" none 300).deleted = true ∧
    (itemFactoryCreate (fun _ => 7) "u" deletedHash none 400).contentSize = 0 ∧
    (itemFactoryCreate (fun _ => 7) "u" deletedHash none 400).encItemKey = none := by
  have h := claim4_theorem (fun _ => 7) (fun _ => 0) vaultItem deletedHash "u" none 300 400 rfl
  exact ⟨h.1.2.1, h.1.1, h.2.2.2.1, h.2.2.2.2.1⟩

/-- C6: a persistence error while updating an EXISTING item aborts the whole
batch — the try/catch in the save loop wraps only saveNewItem — so the second
hash of this batch is never processed and no conflict entry is produced,
contrary to the claim that any single-item error becomes an ItemConflict and
the rest of the batch proceeds. -/
theorem claim6_counterexample :
    findByUuid [itemA] "a" = some itemA ∧
    saveItems abortEnv [itemA] [{ uuid := "a" }, { uuid := "b" }] =
      Except.error "save failed" := by
  exact ⟨rfl, rfl⟩

/-- C6 (amended): only a persistence error on the CREATE path is tolerated:
when a hash names no existing item, the validator passes, and the repository
save throws, the loop records a UuidConflict entry for that hash and proceeds
with the remaining hashes exactly as if they were the whole batch; an error
while saving an update propagates and aborts the batch. -/
theorem claim6_amended (env : SaveEnv) (st : SaveState) (h : ItemHash) (hs : List ItemHash)
    (hro : env.readOnlyAccess = false)
    (hex : findByUuid st.repo h.uuid = none)
    (hv : (env.validate h none).passed = true)
    (hsf : env.saveFails h.uuid = true) :
    saveItemsLoop env (h :: hs) st =
      saveItemsLoop env hs
        { st with
          conflicts := st.conflicts ++
            [{ unsavedItem := h
               conflictType := ConflictType.uuidConflict }]
          stamp := st.stamp + 1 } := by
  simp [saveItemsLoop, processItemHash, hex, hro, hv, hsf]

/-- C6 witness: the amended continuation law evaluated on a concrete failing
create followed by one more hash. -/
theorem claim6_witness :
    saveItemsLoop createFailEnv [{ uuid := "c" }, { uuid := "d" }] { repo := [] } =
      saveItemsLoop createFailEnv [{ uuid := "d" }]
        { repo := []
          conflicts := [{ unsavedItem := { uuid := "c" }
                          conflictType := ConflictType.uuidConflict }]
          stamp := 1 } :=
  claim6_amended createFailEnv { repo := [] } { uuid := "c" } [{ uuid := "d" }] rfl rfl rfl rfl

/-- C5: the claim says saved_items preserves request order; but
calculateSyncToken sorts the savedItems array in place by
updated_at_timestamp, so a batch [a, b] in which a is freshly updated
(timestamp 1000) and b is skipped with its stale server item (timestamp 5)
returns saved_items [b, a]. -/
theorem claim5_counterexample :
    (saveItems orderEnv orderRepo [{ uuid := "a" }, { uuid := "b" }]).map
        (fun r => r.savedItems.map Item.uuid) = Except.ok ["b", "a"] ∧
    [ItemHash.uuid { uuid := "a" }, ItemHash.uuid { uuid := "b" }] = ["a", "b"] := by
  exact ⟨rfl, rfl⟩

lemma updateExistingItem_uuid (projectSize : Item → Nat) (convDateStr : String → Nat)
    (e : Item) (ih : ItemHash) (u : String) (s : Option String) (t : Nat) :
    (updateExistingItem projectSize convDateStr e ih u s t).uuid = e.uuid := by
  cases hd : ih.deleted with
  | none => simp [updateExistingItem, hd, apply_ite Item.uuid]
  | some d => cases d <;> simp [updateExistingItem, hd, apply_ite Item.uuid]

lemma updateExistingItem_updatedAtTimestamp (projectSize : Item → Nat) (convDateStr : String → Nat)
    (e : Item) (ih : ItemHash) (u : String) (s : Option String) (t : Nat) :
    (updateExistingItem projectSize convDateStr e ih u s t).updatedAtTimestamp = t := by
  cases hd : ih.deleted with
  | none => simp [updateExistingItem, hd, apply_ite Item.updatedAtTimestamp]
  | some d => cases d <;> simp [updateExistingItem, hd, apply_ite Item.updatedAtTimestamp]

lemma itemFactoryCreate_uuid (projectSize : Item → Nat) (u : String)
    (ih : ItemHash) (s : Option String) (now : Nat) :
    (itemFactoryCreate projectSize u ih s now).uuid = ih.uuid := by
  cases hd : ih.deleted with
  | none => simp [itemFactoryCreate, hd]
  | some d => cases d <;> simp [itemFactoryCreate, hd]

lemma itemFactoryCreate_updatedAtTimestamp (projectSize : Item → Nat) (u : String)
    (ih : ItemHash) (s : Option String) (now : Nat) :
    (itemFactoryCreate projectSize u ih s now).updatedAtTimestamp = now := by
  cases hd : ih.deleted with
  | none => simp [itemFactoryCreate, hd]
  | some d => cases d <;> simp [itemFactoryCreate, hd]

lemma saveItemsLoop_allPass (env : SaveEnv)
    (hro : env.readOnlyAccess = false)
    (hv : ∀ ih e, (env.validate ih e).passed = true)
    (hsf : ∀ u, env.saveFails u = false)
    (hmono : ∀ i j, i < j → env.stamps i < env.stamps j) :
    ∀ (hashes : List ItemHash) (st : SaveState),
      st.savedItems.Pairwise (fun a b => a.updatedAtTimestamp < b.updatedAtTimestamp) →
      (∀ it ∈ st.savedItems, ∀ k, st.stamp ≤ k → it.updatedAtTimestamp < env.stamps k) →
      ∃ st2, saveItemsLoop env hashes st = Except.ok st2 ∧
        st2.savedItems.map Item.uuid = st.savedItems.map Item.uuid ++ hashes.map ItemHash.uuid ∧
        st2.savedItems.Pairwise (fun a b => a.updatedAtTimestamp < b.updatedAtTimestamp) := by
  intro hashes
  induction hashes with
  | nil =>
    intro st hpw _
    exact ⟨st, rfl, by simp, hpw⟩
  | cons h hs ih =>
    intro st hpw hbound
    cases hfind : findByUuid st.repo h.uuid with
    | some existing =>
      have huuid : existing.uuid = h.uuid := by
        have := List.find?_some hfind
        simpa using this
      set updated := updateExistingItem env.projectSize env.convDateStr existing h
        env.userUuid env.sessionUuid (env.stamps st.stamp) with hupd
      have hstep : processItemHash env st h = Except.ok
          { st with
            repo := upsertItem st.repo updated
            savedItems := st.savedItems ++ [updated]
            stamp := st.stamp + 1 } := by
        simp [processItemHash, hfind, hro, hv, hsf, hupd]
      have hts : updated.updatedAtTimestamp = env.stamps st.stamp := by
        rw [hupd]; exact updateExistingItem_updatedAtTimestamp _ _ _ _ _ _ _
      have hpw2 : (st.savedItems ++ [updated]).Pairwise
          (fun a b => a.updatedAtTimestamp < b.updatedAtTimestamp) := by
        rw [List.pairwise_append]
        refine ⟨hpw, by simp, ?_⟩
        intro a ha b hb
        simp at hb
        subst hb
        rw [hts]
        exact hbound a ha st.stamp (Nat.le_refl _)
      have hbound2 : ∀ it ∈ st.savedItems ++ [updated], ∀ k, st.stamp + 1 ≤ k →
          it.updatedAtTimestamp < env.stamps k := by
        intro it hit k hk
        rcases List.mem_append.mp hit with hin | hin
        · exact hbound it hin k (Nat.le_of_succ_le hk)
        · simp at hin
          subst hin
          rw [hts]
          exact hmono st.stamp k hk
      obtain ⟨st2, hloop, hmap, hpw3⟩ := ih
        { st with
          repo := upsertItem st.repo updated
          savedItems := st.savedItems ++ [updated]
          stamp := st.stamp + 1 } hpw2 hbound2
      refine ⟨st2, ?_, ?_, hpw3⟩
      · simp [saveItemsLoop, hstep, hloop]
      · rw [hmap]
        simp [updateExistingItem_uuid, huuid, hupd]
    | none =>
      set newItem := itemFactoryCreate env.projectSize env.userUuid h
        env.sessionUuid (env.stamps st.stamp) with hnew
      have hstep : processItemHash env st h = Except.ok
          { st with
            repo := upsertItem st.repo newItem
            savedItems := st.savedItems ++ [newItem]
            stamp := st.stamp + 1 } := by
        simp [processItemHash, hfind, hro, hv, hsf, hnew]
      have hts : newItem.updatedAtTimestamp = env.stamps st.stamp := by
        rw [hnew]; exact itemFactoryCreate_updatedAtTimestamp _ _ _ _ _
      have hpw2 : (st.savedItems ++ [newItem]).Pairwise
          (fun a b => a.updatedAtTimestamp < b.updatedAtTimestamp) := by
        rw [List.pairwise_append]
        refine ⟨hpw, by simp, ?_⟩
        intro a ha b hb
        simp at hb
        subst hb
        rw [hts]
        exact hbound a ha st.stamp (Nat.le_refl _)
      have hbound2 : ∀ it ∈ st.savedItems ++ [newItem], ∀ k, st.stamp + 1 ≤ k →
          it.updatedAtTimestamp < env.stamps k := by
        intro it hit k hk
        rcases List.mem_append.mp hit with hin | hin
        · exact hbound it hin k (Nat.le_of_succ_le hk)
        · simp at hin
          subst hin
          rw [hts]
          exact hmono st.stamp k hk
      obtain ⟨st2, hloop, hmap, hpw3⟩ := ih
        { st with
          repo := upsertItem st.repo newItem
          savedItems := st.savedItems ++ [newItem]
          stamp := st.stamp + 1 } hpw2 hbound2
      refine ⟨st2, ?_, ?_, hpw3⟩
      · simp [saveItemsLoop, hstep, hloop]
      · rw [hmap]
        simp [itemFactoryCreate_uuid, hnew]

/-- C5 (amended): saved_items is the request-order list of saved entities
re-sorted (stably) by updated_at_timestamp.  When every hash in the batch is
freshly persisted — so the monotone clock gives the entities strictly
increasing timestamps in request order — the sort is the identity and request
order is preserved; a skipped item carrying a stale timestamp can be moved
ahead of earlier fresh writes. -/
theorem claim5_amended (env : SaveEnv) (repo : List Item) (hashes : List ItemHash)
    (hro : env.readOnlyAccess = false)
    (hv : ∀ ih e, (env.validate ih e).passed = true)
    (hsf : ∀ u, env.saveFails u = false)
    (hmono : ∀ i j, i < j → env.stamps i < env.stamps j) :
    ∃ res, saveItems env repo hashes = Except.ok res ∧
      res.savedItems.map Item.uuid = hashes.map ItemHash.uuid := by
  obtain ⟨st2, hloop, hmap, hpw⟩ :=
    saveItemsLoop_allPass env hro hv hsf hmono hashes { repo := repo } (by simp) (by simp)
  refine ⟨{ savedItems := sortByUpdatedAt st2.savedItems
            conflicts := st2.conflicts
            syncToken := calculateSyncToken env.startTimestamp st2.savedItems }, ?_, ?_⟩
  · simp [saveItems, hloop]
  · have hsorted : List.Sorted tsLe st2.savedItems :=
      hpw.imp fun hlt => Nat.le_of_lt hlt
    show (sortByUpdatedAt st2.savedItems).map Item.uuid = _
    rw [sortByUpdatedAt, hsorted.insertionSort_eq]
    simpa using hmap

/-- C5 witness: the amended order law evaluated on a two-hash all-fresh
batch. -/
theorem claim5_witness :
    ∃ res, saveItems passEnv [] [{ uuid := "x" }, { uuid := "y" }] = Except.ok res ∧
      res.savedItems.map Item.uuid =
        [ItemHash.uuid { uuid := "x" }, ItemHash.uuid { uuid := "y" }] :=
  claim5_amended passEnv [] [{ uuid := "x" }, { uuid := "y" }]
    rfl (fun _ _ => rfl) (fun _ => rfl) (fun i j hij => by simpa [passEnv] using hij)

/-- C3: the claim says a cursor token is emitted when the transfer budget
truncated the response even if total ≤ L.  With two 60-byte items under a
100-byte budget and the default limit, the response is truncated to the first
item, yet the code emits no cursor token because totalItemsCount (2) does not
exceed the limit (150). -/
theorem claim3_counterexample :
    getItems (fun _ => 0) 1000 100 [] [itemC3A, itemC3B] { userUuid := "u" } =
      Except.ok { items := [itemC3A] } ∧
    (computeItemUuidsToFetch [itemC3A, itemC3B] queryC3 100).length <
      (findAllForQuery [itemC3A, itemC3B] queryC3).length := by
  exact ⟨rfl, by decide⟩

/-- C3 (amended): a cursor token is emitted if and only if the total matching
count exceeds the effective limit — transfer-budget truncation alone does not
trigger one — and, when emitted, it is the v2 encoding of the last returned
item's updated_at_timestamp with no +1-microsecond offset. -/
theorem claim3_amended (convDateStr : String → Nat) (maxL : Int) (B : Nat)
    (usv : List String) (repo : List Item) (dto : GetItemsDto)
    (res : GetItemsResult) (lst : Option Nat)
    (hdec : getLastSyncTime convDateStr dto.syncToken dto.cursorToken = Except.ok lst)
    (hok : getItems convDateStr maxL B usv repo dto = Except.ok res) :
    (res.cursorToken.isSome = true ↔
      (countAll repo (builtItemQuery maxL usv dto lst) : Int) >
        effectiveGetItemsLimit dto.limit maxL) ∧
    (∀ t, res.cursorToken = some t →
      ∃ hne : res.items ≠ [],
        t = { version := 2
              micros := (res.items.getLast hne).updatedAtTimestamp }) := by
  unfold getItems at hok
  rw [hdec] at hok
  simp only at hok
  split at hok
  case isTrue hcond =>
    cases hgl : (if (computeItemUuidsToFetch repo
          (builtItemQuery maxL usv dto lst) B).length > 0 then
        sortByUpdatedAt (repo.filter (fun it =>
          (computeItemUuidsToFetch repo (builtItemQuery maxL usv dto lst) B).contains it.uuid))
      else []).getLast? with
    | none =>
      rw [hgl] at hok
      exact absurd hok (by simp)
    | some last =>
      rw [hgl] at hok
      simp only [Except.ok.injEq] at hok
      subst hok
      constructor
      · simpa using hcond
      · intro t ht
        simp only [Option.some.injEq] at ht
        have hne : (if (computeItemUuidsToFetch repo
              (builtItemQuery maxL usv dto lst) B).length > 0 then
            sortByUpdatedAt (repo.filter (fun it =>
              (computeItemUuidsToFetch repo (builtItemQuery maxL usv dto lst) B).contains it.uuid))
          else []) ≠ [] := by
          intro hnil
          rw [hnil] at hgl
          simp at hgl
        refine ⟨hne, ?_⟩
        have := List.getLast?_eq_getLast _ hne
        rw [hgl] at this
        simp only [Option.some.injEq] at this
        rw [← ht, this]
  case isFalse hcond =>
    simp only [Except.ok.injEq] at hok
    subst hok
    constructor
    · simp
      omega
    · intro t ht
      simp at ht

/-- C3 witness: the amended cursor law evaluated on a concrete two-item
repository with effective limit 1. -/
theorem claim3_witness :
    (resultC3w.cursorToken.isSome = true ↔
      (countAll [itemC3A, itemC3B]
          (builtItemQuery 1000 [] { userUuid := "u"
                                    limit := some 1 } none) : Int) >
        effectiveGetItemsLimit (some 1) 1000) ∧
    (∀ t, resultC3w.cursorToken = some t →
      ∃ hne : resultC3w.items ≠ [],
        t = { version := 2
              micros := (resultC3w.items.getLast hne).updatedAtTimestamp }) :=
  claim3_amended (fun _ => 0) 1000 100 [] [itemC3A, itemC3B]
    { userUuid := "u"
      limit := some 1 } resultC3w none rfl rfl

lemma effectiveGetItemsLimit_pos (dtoLimit : Option Int) (maxL : Int) (h : 1 ≤ maxL) :
    1 ≤ effectiveGetItemsLimit dtoLimit maxL := by
  cases dtoLimit with
  | none =>
    simp only [effectiveGetItemsLimit]
    split <;> omega
  | some l =>
    simp only [effectiveGetItemsLimit]
    by_cases hl : l < 1 <;> simp only [hl, if_true, if_false, reduceIte] <;> split <;> omega

lemma take_ne_nil_of_pos {α : Type} (l : List α) (n : Nat) (hl : l ≠ []) (hn : 1 ≤ n) :
    l.take n ≠ [] := by
  cases l with
  | nil => exact absurd rfl hl
  | cons a t =>
    cases n with
    | zero => omega
    | succ m => simp

lemma computeItemUuidsToFetch_head (repo : List Item) (q : ItemQuery) (B : Nat)
    (f : Item) (r : List Item) (hf : findAllForQuery repo q = f :: r) :
    ∃ tail, computeItemUuidsToFetch repo q B = f.uuid :: tail := by
  have hdef : computeItemUuidsToFetch repo q B =
      (if B < f.contentSize then [f.uuid]
       else f.uuid :: selectUnderBudget B f.contentSize r) := by
    unfold computeItemUuidsToFetch
    rw [hf]
  rw [hdef]
  split
  · exact ⟨[], rfl⟩
  · exact ⟨_, rfl⟩

lemma getLastSyncTime_error (convDateStr : String → Nat) (s c : Option RawToken) (e : GetErr)
    (h : getLastSyncTime convDateStr s c = Except.error e) : e = GetErr.badToken := by
  unfold getLastSyncTime at h
  rcases c with _ | t
  · rcases s with _ | t
    · simp at h
    · cases t <;> simp_all
  · cases t <;> simp_all

/-- C10: whenever the total matching count exceeds the effective limit, the
hydrated items list is non-empty, so the items[items.length - 1] access that
builds the cursor token is in bounds: provided MAX_SYNC_LIMIT is at least 1,
getItems can only fail by rejecting a malformed token, never by reading the
last element of an empty list. -/
theorem claim10_theorem (convDateStr : String → Nat) (maxL : Int) (B : Nat)
    (usv : List String) (repo : List Item) (dto : GetItemsDto)
    (hmax : 1 ≤ maxL) (e : GetErr)
    (herr : getItems convDateStr maxL B usv repo dto = Except.error e) :
    e = GetErr.badToken := by
  unfold getItems at herr
  cases hdec : getLastSyncTime convDateStr dto.syncToken dto.cursorToken with
  | error eb =>
    rw [hdec] at herr
    simp only [Except.error.injEq] at herr
    subst herr
    exact getLastSyncTime_error convDateStr dto.syncToken dto.cursorToken _ hdec
  | ok lst =>
    rw [hdec] at herr
    simp only at herr
    split at herr
    case isFalse hcond => simp at herr
    case isTrue hcond =>
      exfalso
      have hlimpos := effectiveGetItemsLimit_pos dto.limit maxL hmax
      have hlim : 1 ≤ (builtItemQuery maxL usv dto lst).limit := by
        show 1 ≤ (effectiveGetItemsLimit dto.limit maxL).toNat
        omega
      have hcount : 0 < countAll repo (builtItemQuery maxL usv dto lst) := by omega
      have hfilter : repo.filter
          (fun it => matchesQuery (builtItemQuery maxL usv dto lst) it) ≠ [] := by
        intro hnil
        unfold countAll at hcount
        rw [hnil] at hcount
        simp at hcount
      have hsortne : sortByUpdatedAt (repo.filter
          (fun it => matchesQuery (builtItemQuery maxL usv dto lst) it)) ≠ [] := by
        intro hnil
        have hlen := (List.perm_insertionSort tsLe (repo.filter
          (fun it => matchesQuery (builtItemQuery maxL usv dto lst) it))).length_eq
        rw [show List.insertionSort tsLe (repo.filter
          (fun it => matchesQuery (builtItemQuery maxL usv dto lst) it)) =
            sortByUpdatedAt (repo.filter
              (fun it => matchesQuery (builtItemQuery maxL usv dto lst) it)) from rfl,
          hnil] at hlen
        simp at hlen
        exact hfilter (List.eq_nil_of_length_eq_zero hlen.symm)
      have hstream : findAllForQuery repo (builtItemQuery maxL usv dto lst) ≠ [] := by
        show ((sortByUpdatedAt (repo.filter
            (fun it => matchesQuery (builtItemQuery maxL usv dto lst) it))).drop 0).take
          (builtItemQuery maxL usv dto lst).limit ≠ []
        rw [List.drop_zero]
        exact take_ne_nil_of_pos _ _ hsortne hlim
      cases hfq : findAllForQuery repo (builtItemQuery maxL usv dto lst) with
      | nil => exact hstream hfq
      | cons f r =>
        obtain ⟨tail, htail⟩ :=
          computeItemUuidsToFetch_head repo (builtItemQuery maxL usv dto lst) B f r hfq
        have hmemrepo : f ∈ repo := by
          have h1 : f ∈ findAllForQuery repo (builtItemQuery maxL usv dto lst) := by
            rw [hfq]
            exact List.mem_cons_self f r
          have h2 : f ∈ sortByUpdatedAt (repo.filter
              (fun it => matchesQuery (builtItemQuery maxL usv dto lst) it)) := by
            have h3 := List.take_subset _ _ h1
            have h4 : f ∈ (sortByUpdatedAt (repo.filter
                (fun it => matchesQuery (builtItemQuery maxL usv dto lst) it))).drop 0 := h3
            rw [List.drop_zero] at h4
            exact h4
          have h4 : f ∈ repo.filter
              (fun it => matchesQuery (builtItemQuery maxL usv dto lst) it) :=
            (List.perm_insertionSort tsLe _).mem_iff.mp h2
          exact List.mem_of_mem_filter h4
        have hhyd : f ∈ repo.filter (fun it =>
            (computeItemUuidsToFetch repo (builtItemQuery maxL usv dto lst) B).contains it.uuid) := by
          refine List.mem_filter.mpr ⟨hmemrepo, ?_⟩
          rw [htail]
          simp
        have hhydne : sortByUpdatedAt (repo.filter (fun it =>
            (computeItemUuidsToFetch repo (builtItemQuery maxL usv dto lst) B).contains it.uuid)) ≠ [] := by
          intro hnil
          have hmem2 := (List.perm_insertionSort tsLe (repo.filter (fun it =>
            (computeItemUuidsToFetch repo
              (builtItemQuery maxL usv dto lst) B).contains it.uuid))).mem_iff.mpr hhyd
          rw [show List.insertionSort tsLe (repo.filter (fun it =>
            (computeItemUuidsToFetch repo (builtItemQuery maxL usv dto lst) B).contains it.uuid)) =
              sortByUpdatedAt (repo.filter (fun it =>
                (computeItemUuidsToFetch repo
                  (builtItemQuery maxL usv dto lst) B).contains it.uuid)) from rfl, hnil] at hmem2
          simp at hmem2
        have hlen : 0 < (computeItemUuidsToFetch repo (builtItemQuery maxL usv dto lst) B).length := by
          rw [htail]
          simp
        have hitems : (if (computeItemUuidsToFetch repo
            (builtItemQuery maxL usv dto lst) B).length > 0 then
              sortByUpdatedAt (repo.filter (fun it =>
                (computeItemUuidsToFetch repo (builtItemQuery maxL usv dto lst) B).contains it.uuid))
            else []) ≠ [] := by
          rw [if_pos hlen]
          exact hhydne
        cases hgl : (if (computeItemUuidsToFetch repo
            (builtItemQuery maxL usv dto lst) B).length > 0 then
              sortByUpdatedAt (repo.filter (fun it =>
                (computeItemUuidsToFetch repo (builtItemQuery maxL usv dto lst) B).contains it.uuid))
            else []).getLast? with
        | none =>
          have hsome := List.getLast?_eq_getLast _ hitems
          rw [hgl] at hsome
          simp at hsome
        | some last =>
          rw [hgl] at herr
          simp at herr

/-- C10 witness: the safety law evaluated on a concrete failing request — the
only error getItems produces is the bad-token one. -/
theorem claim10_witness :
    (1 : Int) ≤ 1000 ∧
    getItems (fun _ => 0) 1000 100 [] [itemC3A] badTokenDto =
      Except.error GetErr.badToken ∧
    GetErr.badToken = GetErr.badToken := by
  refine ⟨by decide, rfl, ?_⟩
  exact claim10_theorem (fun _ => 0) 1000 100 [] [itemC3A] badTokenDto (by decide)
    GetErr.badToken rfl

/-- C7: the claim keys the no-copy short-circuit on the target store holding
items, but the code keys it on the SOURCE (secondary) store being empty:
with an item in the target and one in the source, the copy phase still runs;
with an empty target and empty source, no copy runs and Verified is
published anyway. -/
theorem claim7_counterexample :
    countAll envBoth.primary { userUuid := "u" } = 1 ∧
    (executeTransition envBoth).copyRan = true ∧
    (executeTransition envEmpty).copyRan = false ∧
    (executeTransition envEmpty).events = [TransitionStatus.verified] := by
  exact ⟨rfl, rfl, rfl, rfl⟩

/-- C7 (amended): given the repositories and a valid user uuid, the runner
performs no copying, publishes exactly one Verified status and returns
successfully precisely when the SOURCE (secondary) store holds no items for
the user; whenever the source store is non-empty the copy phase runs. -/
theorem claim7_amended (env : TransEnv)
    (hs : env.secondaryRepoPresent = true)
    (hst : env.statusRepoPresent = true)
    (hu : env.userUuidValid = true) :
    (countAll env.secondary { userUuid := env.userUuid } = 0 →
      (executeTransition env).copyRan = false ∧
      (executeTransition env).events = [TransitionStatus.verified] ∧
      (executeTransition env).ok = true) ∧
    (countAll env.secondary { userUuid := env.userUuid } ≠ 0 →
      (executeTransition env).copyRan = true) := by
  constructor
  · intro hzero
    simp [executeTransition, hs, hst, hu, hzero]
  · intro hnz
    have hne : (countAll env.secondary { userUuid := env.userUuid } == 0) = false := by
      simpa using hnz
    simp only [executeTransition, hs, hst, hu, hne, Bool.true_eq_false, Bool.false_eq_true,
      if_false, reduceIte]
    split
    · rfl
    · split
      · rfl
      · split
        · rfl
        · rfl

/-- C7 witness: the amended short-circuit law evaluated on the empty-source
run. -/
theorem claim7_witness :
    (executeTransition envEmpty).copyRan = false ∧
    (executeTransition envEmpty).events = [TransitionStatus.verified] ∧
    (executeTransition envEmpty).ok = true :=
  (claim7_amended envEmpty rfl rfl rfl).1 rfl

lemma migratePages_events (env : TransEnv) (totalPages : Nat) :
    ∀ (fuel currentPage : Nat) (primary : List Item) (events : List TransitionStatus)
      (progress : Nat),
      ∃ k, (migratePages env totalPages fuel currentPage primary events progress).events =
        events ++ List.replicate k TransitionStatus.inProgress := by
  intro fuel
  induction fuel with
  | zero =>
    intro currentPage primary events progress
    exact ⟨0, by simp [migratePages]⟩
  | succ n ih =>
    intro currentPage primary events progress
    by_cases h1 : totalPages < currentPage
    · exact ⟨0, by simp [migratePages, h1]⟩
    · by_cases h2 : currentPage % ceilDiv totalPages 10 == 0
      · by_cases h3 : env.findAllThrowsAtPage currentPage
        · refine ⟨1, ?_⟩
          simp [migratePages, h1, h2, h3]
        · obtain ⟨k, hk⟩ := ih (currentPage + 1)
            ((findAllForQuery env.secondary
              { userUuid := env.userUuid
                sortByCreatedAt := true
                offset := (currentPage - 1) * env.pageSize
                limit := env.pageSize }).foldl (migrateItem env) primary)
            (events ++ [TransitionStatus.inProgress]) currentPage
          refine ⟨k + 1, ?_⟩
          simp only [migratePages, h1, if_false, reduceIte, h2, if_true,
            Bool.not_eq_true] at hk ⊢
          simp only [h3, Bool.false_eq_true, if_false, reduceIte] at hk ⊢
          rw [hk]
          simp [List.replicate_succ]
      · by_cases h3 : env.findAllThrowsAtPage currentPage
        · refine ⟨0, ?_⟩
          simp [migratePages, h1, h2, h3]
        · obtain ⟨k, hk⟩ := ih (currentPage + 1)
            ((findAllForQuery env.secondary
              { userUuid := env.userUuid
                sortByCreatedAt := true
                offset := (currentPage - 1) * env.pageSize
                limit := env.pageSize }).foldl (migrateItem env) primary)
            events currentPage
          refine ⟨k, ?_⟩
          simp only [migratePages, h1, if_false, reduceIte, h2, Bool.false_eq_true] at hk ⊢
          simp only [h3, Bool.false_eq_true, if_false, reduceIte] at hk ⊢
          exact hk

lemma noVerifiedAfterFailed_of_no_failed :
    ∀ l : List TransitionStatus, TransitionStatus.failed ∉ l →
      noVerifiedAfterFailed l = true := by
  intro l
  induction l with
  | nil => intro _; rfl
  | cons a rest ih =>
    intro h
    have htail : TransitionStatus.failed ∉ rest := fun hm => h (List.mem_cons_of_mem _ hm)
    cases a with
    | failed => exact absurd (List.mem_cons_self _ _) h
    | notStarted => exact ih htail
    | inProgress => exact ih htail
    | verified => exact ih htail

lemma noVerifiedAfterFailed_append_failed :
    ∀ l : List TransitionStatus, TransitionStatus.verified ∉ l →
      noVerifiedAfterFailed (l ++ [TransitionStatus.failed]) = true := by
  intro l
  induction l with
  | nil => intro _; rfl
  | cons a rest ih =>
    intro h
    have htail : TransitionStatus.verified ∉ rest := fun hm => h (List.mem_cons_of_mem _ hm)
    cases a with
    | failed =>
      show (decide (TransitionStatus.verified ∉ rest ++ [TransitionStatus.failed]) &&
        noVerifiedAfterFailed (rest ++ [TransitionStatus.failed])) = true
      rw [ih htail]
      simp [List.mem_append, htail]
    | notStarted => exact ih htail
    | inProgress => exact ih htail
    | verified => exact absurd (List.mem_cons_self _ _) h

/-- C8: when the cleanup phase fails after a successful copy and integrity
check, the execution publishes Failed and then still publishes a final
Verified, so a Verified status event follows a Failed one within a single
execution, contrary to the claimed state machine. -/
theorem claim8_counterexample :
    (executeTransition envCleanup).events =
      [TransitionStatus.inProgress, TransitionStatus.failed, TransitionStatus.verified] ∧
    (executeTransition envCleanup).ok = true := by
  exact ⟨rfl, rfl⟩

/-- C8 (amended): within one execution the published statuses follow
InProgress* then a terminal Verified or Failed — no Verified ever follows a
Failed — except in the cleanup-failure case, where the execution publishes
Failed and then a final Verified while still returning success.  In
particular every execution that returns a failure publishes no Verified after
a Failed, and so does every execution in which the cleanup deletion does not
reject. -/
theorem claim8_amended (env : TransEnv) :
    ((executeTransition env).ok = false →
      noVerifiedAfterFailed (executeTransition env).events = true) ∧
    (env.cleanupFails = false →
      noVerifiedAfterFailed (executeTransition env).events = true) := by
  obtain ⟨k, hk⟩ := migratePages_events env
    (ceilDiv (countAll env.secondary { userUuid := env.userUuid }) env.pageSize)
    (ceilDiv (countAll env.secondary { userUuid := env.userUuid }) env.pageSize + 1 -
      env.pagingProgress)
    env.pagingProgress env.primary [] env.pagingProgress
  have hm : (migrateItemsForUser env).events = List.replicate k TransitionStatus.inProgress := by
    simpa [migrateItemsForUser] using hk
  have hnf : TransitionStatus.failed ∉ (migrateItemsForUser env).events := by
    rw [hm]
    simp [List.mem_replicate]
  have hnv : TransitionStatus.verified ∉ (migrateItemsForUser env).events := by
    rw [hm]
    simp [List.mem_replicate]
  have key : noVerifiedAfterFailed (executeTransition env).events = true ∨
      (env.cleanupFails = true ∧ (executeTransition env).ok = true) := by
    simp only [executeTransition]
    split
    · left; rfl
    · split
      · left; rfl
      · split
        · left; rfl
        · split
          · left; rfl
          · split
            · left
              exact noVerifiedAfterFailed_append_failed _ hnv
            · split
              · left
                exact noVerifiedAfterFailed_append_failed _ hnv
              · split
                case isTrue hcf => right; exact ⟨hcf, rfl⟩
                case isFalse hcf =>
                  left
                  refine noVerifiedAfterFailed_of_no_failed _ ?_
                  intro hmem
                  rcases List.mem_append.mp hmem with hin | hin
                  · exact hnf hin
                  · simp at hin
  constructor
  · intro hok
    rcases key with h | ⟨_, hoktrue⟩
    · exact h
    · rw [hok] at hoktrue
      exact absurd hoktrue (by decide)
  · intro hcf
    rcases key with h | ⟨hcf2, _⟩
    · exact h
    · rw [hcf] at hcf2
      exact absurd hcf2 (by decide)

/-- C8 witness: the amended event-order law evaluated on the successful
two-store run with no cleanup failure. -/
theorem claim8_witness :
    noVerifiedAfterFailed (executeTransition envBoth).events = true :=
  (claim8_amended envBoth).2 rfl

end SyncServer
